import Mathlib

/-!
# Verification of the chunk–embed–upload–validate pipeline

Shallow embedding of the core pipeline of this repository:
`upload.py` (class `TextUploader`) and `validate_pinecone.py`
(class `PineconeValidator`).

External collaborators are modelled as parameters:
* the `tiktoken` tokenizer is a pair of functions `encode`/`decode`
  (a `Tokenizer` structure);
* `hashlib.md5(...).hexdigest()` is an abstract function
  `md5hex : String → String`;
* the OpenAI embeddings endpoint is an oracle
  `Nat → ApiOutcome` giving the outcome of each attempt;
* the Pinecone `index.fetch` call is an oracle
  `List String → FetchOutcome`.

Everything that the Python source computes itself (chunk windows,
identifier strings, retry control flow, found/not-found accounting)
is translated directly from the source.
-/

/-- Model of the `tiktoken` tokenizer used by both scripts:
`encode` turns text into a sequence of token codes, `decode` turns a
sequence of token codes back into text.  `count_tokens` in the source is
`len(tokenizer.encode(text))`; the `len(text)//3` fallback taken when
`encode` raises is not modelled (the model's `encode` is total). -/
structure Tokenizer where
  encode : String → List Nat
  decode : List Nat → String

/-- Model of Python's `str.strip()`: remove leading and trailing
whitespace characters.  (Python strips the full Unicode whitespace
class; the model uses `Char.isWhitespace`, which covers the ASCII
whitespace characters — no claim depends on the exotic ones.) -/
def pyStrip (s : String) : String :=
  String.mk (((s.data.dropWhile Char.isWhitespace).reverse.dropWhile Char.isWhitespace).reverse)

/-- `os.path` separator test.  The scripts run on Windows (`ntpath`),
where both `/` and `\` separate path components. -/
def isPathSep (c : Char) : Bool := c = '/' || c = '\\'

/-- Model of `os.path.basename`: the part of the path after the last
separator.  (Drive-letter splitting of `ntpath` is not modelled; no
claim depends on it.) -/
def pathBasename (p : String) : String :=
  String.mk (p.data.foldl (fun acc c => if isPathSep c then [] else acc ++ [c]) [])

/-- Model of `os.path.splitext(name)[0]` applied to a basename: cut at
the last dot, except that dots at the start of the name never begin an
extension (`.bashrc` has no extension). -/
def splitextRoot (name : String) : String :=
  let cs := name.data
  let leading := (cs.takeWhile (fun c => c = '.')).length
  let afterLast := (cs.reverse.takeWhile (fun c => c ≠ '.')).length
  if afterLast = cs.length then name
  else
    let dotIdx := cs.length - afterLast - 1
    if dotIdx < leading then name else String.mk (cs.take dotIdx)

/-- `"".join(c for c in filename if c.isalnum() or c in ('-','_'))[:50]`:
keep alphanumeric characters, `-` and `_`, then truncate to 50
characters.  Python's Unicode-aware `str.isalnum` is modelled by
`Char.isAlphanum`. -/
def sanitizeStem (s : String) : String :=
  String.mk ((s.data.filter (fun c => c.isAlphanum || c = '-' || c = '_')).take 50)

/-- Python's `f"{n:03d}"` for a natural number: the decimal digits,
left-padded with zeros to at least three characters. -/
def pad3 (n : Nat) : String :=
  let s := toString n
  String.mk (List.replicate (3 - s.length) '0') ++ s

namespace Upload

/-- `TextUploader.generate_file_id` (upload.py, lines 196-205).
`md5hex` abstracts `hashlib.md5(file_path.encode("utf-8")).hexdigest()`. -/
def generate_file_id (md5hex : String → String) (file_path : String) (chunk_num : Nat) : String :=
  let file_hash := (md5hex file_path).take 8
  let filename := sanitizeStem (splitextRoot (pathBasename file_path))
  if chunk_num > 0 then
    file_hash ++ "_" ++ filename ++ "_chunk_" ++ pad3 chunk_num
  else
    file_hash ++ "_" ++ filename

end Upload

namespace Validate

/-- `PineconeValidator.generate_file_id` (validate_pinecone.py, lines
28-37); the source duplicates the uploader's code verbatim. -/
def generate_file_id (md5hex : String → String) (file_path : String) (chunk_num : Nat) : String :=
  let file_hash := (md5hex file_path).take 8
  let filename := sanitizeStem (splitextRoot (pathBasename file_path))
  if chunk_num > 0 then
    file_hash ++ "_" ++ filename ++ "_chunk_" ++ pad3 chunk_num
  else
    file_hash ++ "_" ++ filename

end Validate

/-- The identifier format as the specification words it: 8 hex
characters of the path hash, an underscore, the sanitized stem
(non-alphanumeric characters other than `-`/`_` removed, at most
50 characters), and, for a positive chunk index, `_chunk_` followed by
the index zero-padded to three digits. -/
def specChunkId (md5hex : String → String) (file_path : String) (n : Nat) : String :=
  let hash8 := (md5hex file_path).take 8
  let stem :=
    String.mk (((splitextRoot (pathBasename file_path)).data.filter
      (fun c => c.isAlphanum || c = '-' || c = '_')).take 50)
  if n = 0 then hash8 ++ "_" ++ stem
  else hash8 ++ "_" ++ stem ++ "_chunk_" ++ pad3 n

/-- Body of the chunking loop.  One call is one iteration of the
`while` loop: slice `tokens[start : min(start+max_tokens, len)]`,
decode, strip; append if non-empty after stripping; advance `start` by
`step = max_tokens - overlap_tokens`; break when `step ≤ 0`
(in `Nat`, `step = 0`). -/
def chunkLoop (tok : Tokenizer) (tokens : List Nat) (max_tokens overlap_tokens : Nat) :
    Nat → Nat → List String
  | 0, _ => []
  | fuel + 1, start =>
    if start < tokens.length then
      let chunk_text := pyStrip (tok.decode ((tokens.drop start).take max_tokens))
      let step := max_tokens - overlap_tokens
      let rest :=
        if step = 0 then []
        else chunkLoop tok tokens max_tokens overlap_tokens fuel (start + step)
      if chunk_text = "" then rest else chunk_text :: rest
    else []

/-- `chunk_text_by_tokens`: encode the whole text once; if it fits in
`max_tokens`, return the single original text; otherwise run the
sliding-window loop. -/
def chunk_text_by_tokens (tok : Tokenizer) (text : String)
    (max_tokens overlap_tokens : Nat) : List String :=
  let tokens := tok.encode text
  if tokens.length ≤ max_tokens then [text]
  else chunkLoop tok tokens max_tokens overlap_tokens tokens.length 0

/-- The token windows the loop slices before decoding: the value of
`chunk_tokens` at each iteration. -/
def chunkWindows (tokens : List Nat) (max_tokens overlap_tokens : Nat) :
    Nat → Nat → List (List Nat)
  | 0, _ => []
  | fuel + 1, start =>
    if start < tokens.length then
      let w := (tokens.drop start).take max_tokens
      let step := max_tokens - overlap_tokens
      if step = 0 then [w]
      else w :: chunkWindows tokens max_tokens overlap_tokens fuel (start + step)
    else []

/-- The per-chunk identifier assignment of `upload_text_file`
(upload.py, lines 243-246): the 1-based chunk index is used when the
document produced more than one chunk, the unsuffixed id otherwise. -/
def assignedId (md5hex : String → String) (chunks : List String)
    (file_path : String) (chunk_idx : Nat) : String :=
  if chunks.length > 1 then Upload.generate_file_id md5hex file_path (chunk_idx + 1)
  else Upload.generate_file_id md5hex file_path 0

/-- Concrete tokenizer for witnesses: one token per character. -/
def charTok : Tokenizer :=
  ⟨fun s => s.data.map (fun c => c.toNat), fun l => String.mk (l.map (fun n => Char.ofNat n))⟩

/-- Concrete stand-in for the md5 hex digest in witnesses. -/
def wmd5 : String → String := fun _ => "0123456789abcdef0123456789abcdef"

/-- C6 as frozen: for any two consecutive chunks returned by
`chunk_text_by_tokens` (with `overlap_tokens < max_tokens`), the last
`overlap_tokens` tokens of chunk `i` equal the first `overlap_tokens`
tokens of chunk `i+1`. -/
def C6Claim : Prop :=
  ∀ (tok : Tokenizer) (text : String) (m o : Nat), o < m →
    ∀ (i : Nat) (ci cj : String),
      (chunk_text_by_tokens tok text m o).get? i = some ci →
      (chunk_text_by_tokens tok text m o).get? (i + 1) = some cj →
      (tok.encode ci).drop ((tok.encode ci).length - o) = (tok.encode cj).take o

/-- Degenerate tokenizer for the C5 witness: every text encodes to
15000 tokens and every token list decodes to `"x"`. -/
def bigTok : Tokenizer := ⟨fun _ => List.replicate 15000 0, fun _ => "x"⟩

/-- The truncation pre-check of `get_embedding` (upload.py lines
126-132): when the token count exceeds 8190, re-encode, keep the first
8190 tokens and decode; otherwise the text is sent unchanged. -/
def truncateForEmbedding (tok : Tokenizer) (text : String) : String :=
  if (tok.encode text).length > 8190 then tok.decode ((tok.encode text).take 8190)
  else text

/-- What the per-chunk loop of `upload_text_file` does with one chunk
before any identifier is assigned (upload.py lines 229-237): skip it
when its token count is 0, skip it when the count exceeds 8190,
otherwise hand it to `get_embedding`, whose pre-check decides the text
actually sent with the request. -/
inductive ChunkAction where
  | skippedEmpty
  | skippedTooLarge
  | requested (sentText : String)
deriving DecidableEq

/-- The chunk-gating logic of the upload pipeline. -/
def pipelineChunkAction (tok : Tokenizer) (chunk : String) : ChunkAction :=
  let chunk_tokens := (tok.encode chunk).length
  if chunk_tokens = 0 then ChunkAction.skippedEmpty
  else if chunk_tokens > 8190 then ChunkAction.skippedTooLarge
  else ChunkAction.requested (truncateForEmbedding tok chunk)

/-- C2 as frozen: every pipeline chunk whose token count exceeds 8190
has its text truncated (encode, first 8190 tokens, decode) and is then
sent as an embedding request. -/
def C2Claim : Prop :=
  ∀ (tok : Tokenizer) (chunk : String),
    8190 < (tok.encode chunk).length →
    pipelineChunkAction tok chunk =
      ChunkAction.requested (tok.decode ((tok.encode chunk).take 8190))

/-- Degenerate tokenizer for the C2 counterexample: every text encodes
to 8191 tokens. -/
def tooBigTok : Tokenizer := ⟨fun _ => List.replicate 8191 0, fun _ => "y"⟩

/-- Python's `"needle" in hay` on strings: some suffix of `hay` starts
with `needle`. -/
def strContains (hay needle : String) : Bool :=
  (List.range (hay.data.length + 1)).any (fun i => needle.data.isPrefixOf (hay.data.drop i))

/-- Model of Python's `str.lower()` (character-wise lowercasing). -/
def pyLower (s : String) : String := String.mk (s.data.map Char.toLower)

/-- The rate-limit/quota classification of `get_embedding`
(upload.py line 146): `"429" in str(e) or "quota" in str(e).lower()`. -/
def isRateLimitErr (e : String) : Bool :=
  strContains e "429" || strContains (pyLower e) "quota"

/-- The context-length/validation classification (upload.py line 154):
`"400" in str(e) or "maximum context length" in str(e)`.  Both this
class and the catch-all `else` return failure without retrying, so the
classification only affects the log line. -/
def isTokenLimitErr (e : String) : Bool :=
  strContains e "400" || strContains e "maximum context length"

/-- Outcome of one call to the embeddings endpoint: a vector of type
`V`, or a raised exception rendered as its message string. -/
inductive ApiOutcome (V : Type) where
  | ok (v : V)
  | err (msg : String)
deriving DecidableEq

/-- Observable result of a `get_embedding` call: the returned value
(`none` models Python's `None`), the number of endpoint calls made,
and the list of back-off sleeps performed, in order. -/
structure EmbedRun (V : Type) where
  result : Option V
  calls : Nat
  sleeps : List Nat
deriving DecidableEq

/-- The `for attempt in range(max_retries)` loop of `get_embedding`
(upload.py lines 137-161), iterated over the list of attempt indices.
On success return the vector; on a rate-limit/quota error sleep
`retry_delay * (attempt + 1)` and go on to the next attempt unless
this was the last one; on any other error return `None` at once;
if the loop exhausts all attempts, return `None`. -/
def embedLoop {V : Type} (oracle : Nat → ApiOutcome V) (retry_delay max_retries : Nat) :
    List Nat → EmbedRun V
  | [] => ⟨none, 0, []⟩
  | a :: rest =>
    match oracle a with
    | ApiOutcome.ok v => ⟨some v, 1, []⟩
    | ApiOutcome.err e =>
      if isRateLimitErr e then
        if a < max_retries - 1 then
          let r := embedLoop oracle retry_delay max_retries rest
          ⟨r.result, r.calls + 1, retry_delay * (a + 1) :: r.sleeps⟩
        else ⟨none, 1, []⟩
      else ⟨none, 1, []⟩

/-- `get_embedding`'s retry loop with the source's constants:
`max_retries = 3`, `retry_delay = 5`. -/
def get_embedding_run {V : Type} (oracle : Nat → ApiOutcome V) : EmbedRun V :=
  embedLoop oracle 5 3 (List.range 3)

/-- Outcome of `index.fetch(ids)`: the ids present in the returned
`'vectors'` mapping (the document counts as found iff this is
non-empty), or a raised exception rendered as its message. -/
inductive FetchOutcome where
  | ok (vectors : List String)
  | exn (msg : String)
deriving DecidableEq

/-- Per-file outcome of the validation loop: `found` / `notFound`
increment the respective counter; a file whose text strips to empty is
skipped and counted in neither. -/
inductive FileResult where
  | found
  | notFound
  | skippedNoText
deriving DecidableEq

/-- The expected identifiers of a document
(validate_pinecone.py lines 103-108): 1-based suffixed ids when the
chunker produced more than one chunk, the single unsuffixed id
otherwise. -/
def expectedIds (md5hex : String → String) (chunks : List String)
    (file_path : String) : List String :=
  if chunks.length > 1 then
    (List.range chunks.length).map (fun i => Validate.generate_file_id md5hex file_path (i + 1))
  else [Validate.generate_file_id md5hex file_path 0]

/-- One iteration of the validation loop (validate_pinecone.py lines
96-121): skip texts that strip to empty, otherwise rechunk, derive the
expected ids, fetch, and classify — found iff the response holds any
vector; a raised exception is caught and classified as not found. -/
def validate_file (tok : Tokenizer) (md5hex : String → String)
    (fetch : List String → FetchOutcome) (file_path text : String) : FileResult :=
  if pyStrip text = "" then FileResult.skippedNoText
  else
    let chunks := chunk_text_by_tokens tok text 6000 100
    match fetch (expectedIds md5hex chunks file_path) with
    | FetchOutcome.ok vectors =>
      if vectors.isEmpty then FileResult.notFound else FileResult.found
    | FetchOutcome.exn _ => FileResult.notFound

/-- The counter update of the loop body: `found_count` and
`not_found_count` as a pair. -/
def vdStep (tok : Tokenizer) (md5hex : String → String)
    (fetch : List String → FetchOutcome) (acc : Nat × Nat) (pf : String × String) :
    Nat × Nat :=
  match validate_file tok md5hex fetch pf.1 pf.2 with
  | FileResult.found => (acc.1 + 1, acc.2)
  | FileResult.notFound => (acc.1, acc.2 + 1)
  | FileResult.skippedNoText => acc

/-- `validate_directory` reduced to its observable result: the final
`(found_count, not_found_count)` pair over the directory's
(path, text) entries in order. -/
def validate_directory (tok : Tokenizer) (md5hex : String → String)
    (fetch : List String → FetchOutcome) (files : List (String × String)) : Nat × Nat :=
  files.foldl (vdStep tok md5hex fetch) (0, 0)

/-- The emitted chunks are exactly the decoded, stripped windows with
the ones that strip to the empty string dropped. -/
theorem chunkLoop_eq_windows (tok : Tokenizer) (tokens : List Nat)
    (max_tokens overlap_tokens : Nat) :
    ∀ (fuel start : Nat),
      chunkLoop tok tokens max_tokens overlap_tokens fuel start =
        ((chunkWindows tokens max_tokens overlap_tokens fuel start).map
          (fun w => pyStrip (tok.decode w))).filter (fun t => t ≠ "") := by
  intro fuel
  induction fuel with
  | zero => intro start; simp [chunkLoop, chunkWindows]
  | succ f ih =>
    intro start
    by_cases hs : start < tokens.length
    · by_cases hstep : max_tokens - overlap_tokens = 0
      · simp only [chunkLoop, chunkWindows, hs, if_true, hstep]
        by_cases he : pyStrip (tok.decode ((tokens.drop start).take max_tokens)) = "" <;>
          simp [he]
      · simp only [chunkLoop, chunkWindows, hs, if_true, hstep, if_false, ih]
        by_cases he : pyStrip (tok.decode ((tokens.drop start).take max_tokens)) = "" <;>
          simp [he]
    · simp [chunkLoop, chunkWindows, hs]

/-- Once `start` has reached or passed the end of the token sequence
the loop emits nothing, whatever fuel is left. -/
theorem chunkWindows_stop (tokens : List Nat) (m o f start : Nat)
    (h : tokens.length ≤ start) : chunkWindows tokens m o f start = [] := by
  cases f <;> simp [chunkWindows, Nat.not_lt.2 h]

/-- With a positive step, any fuel that lets `start` pass
`tokens.length` gives the same window list: the loop runs to
completion and extra fuel is never used. -/
theorem chunkWindows_fuel_irrel (tokens : List Nat) (m o : Nat) (hstep : 0 < m - o) :
    ∀ (f g start : Nat), tokens.length ≤ start + f * (m - o) →
      tokens.length ≤ start + g * (m - o) →
      chunkWindows tokens m o f start = chunkWindows tokens m o g start := by
  intro f
  induction f with
  | zero =>
    intro g start hf _
    rw [chunkWindows_stop tokens m o 0 start (by simpa using hf),
        chunkWindows_stop tokens m o g start (by simpa using hf)]
  | succ f ih =>
    intro g start hf hg
    by_cases hs : start < tokens.length
    · cases g with
      | zero =>
        exfalso
        simp only [Nat.zero_mul, Nat.add_zero] at hg
        omega
      | succ g =>
        have hne : m - o ≠ 0 := Nat.pos_iff_ne_zero.mp hstep
        simp only [chunkWindows, hs, if_true, hne, if_false]
        congr 1
        apply ih
        · have hmul : (f + 1) * (m - o) = f * (m - o) + (m - o) := Nat.succ_mul f (m - o)
          omega
        · have hmul : (g + 1) * (m - o) = g * (m - o) + (m - o) := Nat.succ_mul g (m - o)
          omega
    · rw [chunkWindows_stop _ _ _ _ _ (Nat.not_lt.1 hs),
          chunkWindows_stop _ _ _ _ _ (Nat.not_lt.1 hs)]

/-- With step 0 (`max_tokens ≤ overlap_tokens`) the loop breaks after
its first iteration, so all positive fuels agree. -/
theorem chunkWindows_fuel_irrel_of_step_zero (tokens : List Nat) (m o : Nat)
    (hstep : m - o = 0) (f g start : Nat) (hf : 1 ≤ f) (hg : 1 ≤ g) :
    chunkWindows tokens m o f start = chunkWindows tokens m o g start := by
  obtain ⟨f, rfl⟩ : ∃ k, f = k + 1 := ⟨f - 1, by omega⟩
  obtain ⟨g, rfl⟩ : ∃ k, g = k + 1 := ⟨g - 1, by omega⟩
  by_cases hs : start < tokens.length <;> simp [chunkWindows, hs, hstep]

/-- `tokens.length` is always enough fuel: the loop terminates within
that many iterations. -/
theorem chunkWindows_fuel_sufficient (tokens : List Nat) (m o f : Nat)
    (hf : tokens.length ≤ f) :
    chunkWindows tokens m o f 0 = chunkWindows tokens m o tokens.length 0 := by
  by_cases hstep : 0 < m - o
  · apply chunkWindows_fuel_irrel tokens m o hstep
    · have : f * 1 ≤ f * (m - o) := Nat.mul_le_mul_left f hstep
      omega
    · have : tokens.length * 1 ≤ tokens.length * (m - o) :=
        Nat.mul_le_mul_left tokens.length hstep
      omega
  · rcases Nat.eq_zero_or_pos tokens.length with h0 | h1
    · rw [chunkWindows_stop _ _ _ _ _ (by omega), chunkWindows_stop _ _ _ _ _ (by omega)]
    · exact chunkWindows_fuel_irrel_of_step_zero tokens m o (by omega) f tokens.length 0
        (by omega) h1

/-- Fuel sufficiency transported to the chunk loop itself. -/
theorem chunkLoop_fuel_sufficient (tok : Tokenizer) (tokens : List Nat) (m o f : Nat)
    (hf : tokens.length ≤ f) :
    chunkLoop tok tokens m o f 0 = chunkLoop tok tokens m o tokens.length 0 := by
  rw [chunkLoop_eq_windows, chunkLoop_eq_windows, chunkWindows_fuel_sufficient tokens m o f hf]

/-- C8: the chunking loop terminates.  Fuel `tokens.length` is enough
(once `start` reaches or passes the token count nothing more happens,
so any larger fuel yields the same result), and when
`max_tokens - overlap_tokens ≤ 0` the loop stops after a single
iteration, emitting at most one chunk. -/
theorem chunk_loop_terminates (tok : Tokenizer) (text : String)
    (m o f : Nat) (hf : (tok.encode text).length ≤ f) :
    chunkLoop tok (tok.encode text) m o f 0 =
      chunkLoop tok (tok.encode text) m o (tok.encode text).length 0 ∧
    (m ≤ o → (chunkLoop tok (tok.encode text) m o f 0).length ≤ 1) := by
  refine ⟨chunkLoop_fuel_sufficient tok (tok.encode text) m o f hf, fun hmo => ?_⟩
  have hstep : m - o = 0 := Nat.sub_eq_zero_of_le hmo
  cases f with
  | zero => simp [chunkLoop]
  | succ f =>
    by_cases hs : 0 < (tok.encode text).length
    · simp only [chunkLoop, hs, if_true, hstep]
      split <;> simp
    · simp [chunkLoop, Nat.not_lt.1 hs, hs]

/-- Witness for C8 at a concrete input (`max_tokens = 1`,
`overlap_tokens = 2`, so the step is non-positive). -/
theorem chunk_loop_terminates_witness :
    chunkLoop charTok (charTok.encode "abc") 1 2 5 0 =
      chunkLoop charTok (charTok.encode "abc") 1 2 (charTok.encode "abc").length 0 ∧
    (chunkLoop charTok (charTok.encode "abc") 1 2 5 0).length ≤ 1 := by
  have h := chunk_loop_terminates charTok "abc" 1 2 5 (by decide)
  exact ⟨h.1, h.2 (by decide)⟩

/-- C4: a text whose token count is at most `max_tokens` produces
exactly one chunk, equal to the original text, and the identifier the
upload loop assigns to it is the unsuffixed one (chunk index 0). -/
theorem single_chunk_identity (tok : Tokenizer) (text : String) (m o : Nat)
    (md5hex : String → String) (path : String)
    (h : (tok.encode text).length ≤ m) :
    chunk_text_by_tokens tok text m o = [text] ∧
    assignedId md5hex (chunk_text_by_tokens tok text m o) path 0 =
      Upload.generate_file_id md5hex path 0 ∧
    Upload.generate_file_id md5hex path 0 =
      (md5hex path).take 8 ++ "_" ++ sanitizeStem (splitextRoot (pathBasename path)) := by
  have h1 : chunk_text_by_tokens tok text m o = [text] := by
    simp [chunk_text_by_tokens, h]
  refine ⟨h1, ?_, rfl⟩
  rw [h1]
  simp [assignedId]

/-- Witness for C4 at a concrete input. -/
theorem single_chunk_identity_witness :
    chunk_text_by_tokens charTok "hi" 6000 100 = ["hi"] ∧
    assignedId wmd5 (chunk_text_by_tokens charTok "hi" 6000 100) "a/doc.txt" 0 =
      Upload.generate_file_id wmd5 "a/doc.txt" 0 ∧
    Upload.generate_file_id wmd5 "a/doc.txt" 0 =
      (wmd5 "a/doc.txt").take 8 ++ "_" ++
        sanitizeStem (splitextRoot (pathBasename "a/doc.txt")) :=
  single_chunk_identity charTok "hi" 6000 100 wmd5 "a/doc.txt" (by decide)

/-- The head of the window list produced from position `start` is the
slice starting at `start`. -/
theorem chunkWindows_head (tokens : List Nat) (m o : Nat) (f start : Nat) (b : List Nat)
    (hb : b ∈ (chunkWindows tokens m o f start).head?) :
    b = (tokens.drop start).take m := by
  cases f with
  | zero => simp [chunkWindows] at hb
  | succ f =>
    by_cases hs : start < tokens.length
    · by_cases hz : m - o = 0 <;> simp_all [chunkWindows]
    · simp [chunkWindows, hs] at hb

/-- Core overlap identity between the slices at `s` and at
`s + (m - o)`: dropping the step from the first slice is the same as
taking the matching number of leading tokens of the second slice. -/
theorem slice_overlap (tokens : List Nat) (m o s : Nat) (ho : o < m) :
    ((tokens.drop s).take m).drop (m - o) =
      ((tokens.drop (s + (m - o))).take m).take
        (((tokens.drop s).take m).length - (m - o)) := by
  rw [List.drop_take, List.drop_drop, List.take_take]
  have hmo : m - (m - o) = o := by omega
  rw [hmo]
  rw [List.take_eq_take]
  simp only [List.length_take, List.length_drop]
  omega

/-- The consecutive-window overlap relation, proven for every adjacent
pair that the loop produces. -/
theorem chunkWindows_chain (tokens : List Nat) (m o : Nat) (ho : o < m) :
    ∀ (f start : Nat),
      List.Chain' (fun w₁ w₂ => w₁.drop (m - o) = w₂.take (w₁.length - (m - o)))
        (chunkWindows tokens m o f start) := by
  intro f
  induction f with
  | zero => intro start; simp [chunkWindows]
  | succ f ih =>
    intro start
    by_cases hs : start < tokens.length
    · have hz : ¬(m - o = 0) := by omega
      simp only [chunkWindows, hs, if_true, hz, if_false]
      rw [List.chain'_cons']
      refine ⟨fun b hb => ?_, ih (start + (m - o))⟩
      rw [chunkWindows_head tokens m o f (start + (m - o)) b hb]
      exact slice_overlap tokens m o start ho
    · simp [chunkWindows, hs]

/-- Counterexample to C6 as frozen: with one token per character,
`text = "abcdefg"`, `max_tokens = 4`, `overlap_tokens = 2`, the chunks
are `["abcd", "cdef", "efg", "g"]`; the last two tokens of `"efg"` are
`fg` but the first two tokens of `"g"` are just `g`. -/
theorem chunk_overlap_claim_false : ¬C6Claim := by
  intro h
  have h2 := h charTok "abcdefg" 4 2 (by decide) 2 "efg" "g" (by decide) (by decide)
  exact absurd h2 (by decide)

/-- C6 amended: the overlap law holds between the token windows the
loop slices (the chunks are these windows decoded and stripped).  For
any two consecutive windows, dropping the first
`max_tokens - overlap_tokens` tokens of window `i` yields exactly the
first `(length of window i) - (max_tokens - overlap_tokens)` tokens of
window `i+1`; whenever window `i` is full (`max_tokens` tokens long)
this says precisely that its last `overlap_tokens` tokens are the
first `overlap_tokens` tokens of window `i+1`.  Truncated windows near
the end of the text satisfy only the general form, which is what the
counterexample exploits. -/
theorem chunk_window_overlap (tok : Tokenizer) (text : String) (m o : Nat) (ho : o < m)
    (i : Nat)
    (h : i + 1 < (chunkWindows (tok.encode text) m o (tok.encode text).length 0).length) :
    (((chunkWindows (tok.encode text) m o (tok.encode text).length 0).get
        ⟨i, Nat.lt_of_succ_lt h⟩).drop (m - o) =
      ((chunkWindows (tok.encode text) m o (tok.encode text).length 0).get ⟨i + 1, h⟩).take
        (((chunkWindows (tok.encode text) m o (tok.encode text).length 0).get
          ⟨i, Nat.lt_of_succ_lt h⟩).length - (m - o))) ∧
    (((chunkWindows (tok.encode text) m o (tok.encode text).length 0).get
        ⟨i, Nat.lt_of_succ_lt h⟩).length = m →
      ((chunkWindows (tok.encode text) m o (tok.encode text).length 0).get
        ⟨i, Nat.lt_of_succ_lt h⟩).drop (m - o) =
        ((chunkWindows (tok.encode text) m o (tok.encode text).length 0).get ⟨i + 1, h⟩).take o) ∧
    chunk_text_by_tokens tok text m o =
      (if (tok.encode text).length ≤ m then [text]
       else ((chunkWindows (tok.encode text) m o (tok.encode text).length 0).map
          (fun w => pyStrip (tok.decode w))).filter (fun t => t ≠ "")) := by
  have hchain := chunkWindows_chain (tok.encode text) m o ho (tok.encode text).length 0
  rw [List.chain'_iff_get] at hchain
  have h1 := hchain i (by omega)
  refine ⟨h1, fun hlen => ?_, ?_⟩
  · have : ((chunkWindows (tok.encode text) m o (tok.encode text).length 0).get
        ⟨i, Nat.lt_of_succ_lt h⟩).length - (m - o) = o := by omega
    rw [h1, this]
  · by_cases hle : (tok.encode text).length ≤ m
    · simp [chunk_text_by_tokens, hle]
    · simp only [chunk_text_by_tokens, hle, if_false]
      exact chunkLoop_eq_windows tok (tok.encode text) m o (tok.encode text).length 0

/-- Witness for the amended C6 at the counterexample input: the
windows of `"abcdefg"` with `max_tokens = 4`, `overlap_tokens = 2` are
`abcd, cdef, efg, g`; between the full window `cdef` and `efg` the
overlap law holds in its exact form. -/
theorem chunk_window_overlap_witness :
    (((chunkWindows (charTok.encode "abcdefg") 4 2
        (charTok.encode "abcdefg").length 0).get ⟨1, by decide⟩).drop 2 =
      ((chunkWindows (charTok.encode "abcdefg") 4 2
        (charTok.encode "abcdefg").length 0).get ⟨2, by decide⟩).take
        (((chunkWindows (charTok.encode "abcdefg") 4 2
          (charTok.encode "abcdefg").length 0).get ⟨1, by decide⟩).length - 2)) ∧
    ((chunkWindows (charTok.encode "abcdefg") 4 2
        (charTok.encode "abcdefg").length 0).get ⟨1, by decide⟩).drop 2 =
      ((chunkWindows (charTok.encode "abcdefg") 4 2
        (charTok.encode "abcdefg").length 0).get ⟨2, by decide⟩).take 2 := by
  have h := chunk_window_overlap charTok "abcdefg" 4 2 (by decide) 1 (by decide)
  exact ⟨h.1, h.2.1 (by decide)⟩

/-- One unfolding of the window loop when the guard holds and the step
is positive. -/
theorem chunkWindows_cons (tokens : List Nat) (m o f start : Nat)
    (hs : start < tokens.length) (hz : m - o ≠ 0) :
    chunkWindows tokens m o (f + 1) start =
      ((tokens.drop start).take m) :: chunkWindows tokens m o f (start + (m - o)) := by
  simp [chunkWindows, hs, hz]

/-- A positive chunk index appends `_chunk_{index:03d}` to the
unsuffixed identifier. -/
theorem generate_file_id_chunk_suffix (md5hex : String → String) (path : String)
    (n : Nat) (hn : 0 < n) :
    Upload.generate_file_id md5hex path n =
      Upload.generate_file_id md5hex path 0 ++ ("_chunk_" ++ pad3 n) := by
  simp [Upload.generate_file_id, hn, String.append_assoc]

/-- C5: a text of exactly 15000 tokens with `max_tokens = 6000`,
`overlap_tokens = 100` is cut into the three token windows
`[0, 6000)`, `[5900, 11900)` and `[11800, 15000)`; the chunks are
these windows decoded and stripped (assumed non-blank, as any real
text is), and the upload loop assigns them the identifiers carrying
the suffixes `_chunk_001`, `_chunk_002`, `_chunk_003` in that order. -/
theorem three_chunk_scenario (tok : Tokenizer) (md5hex : String → String)
    (text path : String)
    (hlen : (tok.encode text).length = 15000)
    (h1 : pyStrip (tok.decode ((tok.encode text).take 6000)) ≠ "")
    (h2 : pyStrip (tok.decode (((tok.encode text).drop 5900).take 6000)) ≠ "")
    (h3 : pyStrip (tok.decode ((tok.encode text).drop 11800)) ≠ "") :
    chunkWindows (tok.encode text) 6000 100 (tok.encode text).length 0 =
      [(tok.encode text).take 6000,
       ((tok.encode text).drop 5900).take 6000,
       (tok.encode text).drop 11800] ∧
    chunk_text_by_tokens tok text 6000 100 =
      [pyStrip (tok.decode ((tok.encode text).take 6000)),
       pyStrip (tok.decode (((tok.encode text).drop 5900).take 6000)),
       pyStrip (tok.decode ((tok.encode text).drop 11800))] ∧
    assignedId md5hex (chunk_text_by_tokens tok text 6000 100) path 0 =
      Upload.generate_file_id md5hex path 0 ++ "_chunk_001" ∧
    assignedId md5hex (chunk_text_by_tokens tok text 6000 100) path 1 =
      Upload.generate_file_id md5hex path 0 ++ "_chunk_002" ∧
    assignedId md5hex (chunk_text_by_tokens tok text 6000 100) path 2 =
      Upload.generate_file_id md5hex path 0 ++ "_chunk_003" := by
  have hw3 : (tok.encode text).drop 11800 = ((tok.encode text).drop 11800).take 6000 := by
    rw [List.take_of_length_le]
    rw [List.length_drop, hlen]
    norm_num
  have e1 : (0 : Nat) + (6000 - 100) = 5900 := by norm_num
  have e2 : (5900 : Nat) + (6000 - 100) = 11800 := by norm_num
  have e3 : (11800 : Nat) + (6000 - 100) = 17700 := by norm_num
  have hwin : chunkWindows (tok.encode text) 6000 100 (tok.encode text).length 0 =
      [(tok.encode text).take 6000,
       ((tok.encode text).drop 5900).take 6000,
       (tok.encode text).drop 11800] := by
    rw [chunkWindows_fuel_irrel (tok.encode text) 6000 100 (by norm_num)
        (tok.encode text).length 3 0 (by rw [hlen]; norm_num) (by rw [hlen]; norm_num)]
    rw [hw3]
    rw [show (3 : Nat) = 2 + 1 from rfl,
      chunkWindows_cons _ _ _ _ _ (by rw [hlen]; norm_num) (by norm_num), e1,
      show (2 : Nat) = 1 + 1 from rfl,
      chunkWindows_cons _ _ _ _ _ (by rw [hlen]; norm_num) (by norm_num), e2,
      show (1 : Nat) = 0 + 1 from rfl,
      chunkWindows_cons _ _ _ _ _ (by rw [hlen]; norm_num) (by norm_num), e3,
      List.drop_zero]
    simp [chunkWindows]
  have hchunks : chunk_text_by_tokens tok text 6000 100 =
      [pyStrip (tok.decode ((tok.encode text).take 6000)),
       pyStrip (tok.decode (((tok.encode text).drop 5900).take 6000)),
       pyStrip (tok.decode ((tok.encode text).drop 11800))] := by
    have hgt : ¬((tok.encode text).length ≤ 6000) := by rw [hlen]; norm_num
    simp only [chunk_text_by_tokens, hgt, if_false]
    rw [chunkLoop_eq_windows, hwin]
    simp [h1, h2, h3]
  have hlen3 : (chunk_text_by_tokens tok text 6000 100).length = 3 := by
    rw [hchunks]
    rfl
  refine ⟨hwin, hchunks, ?_, ?_, ?_⟩ <;>
    simp only [assignedId, hlen3] <;>
    norm_num <;>
    rw [generate_file_id_chunk_suffix md5hex path _ (by norm_num)] <;>
    rfl

/-- Witness for C5 at a concrete input. -/
theorem three_chunk_scenario_witness :
    chunk_text_by_tokens bigTok "t" 6000 100 = ["x", "x", "x"] ∧
    assignedId wmd5 (chunk_text_by_tokens bigTok "t" 6000 100) "doc.txt" 0 =
      Upload.generate_file_id wmd5 "doc.txt" 0 ++ "_chunk_001" := by
  have h := three_chunk_scenario bigTok wmd5 "t" "doc.txt"
    (by rw [show bigTok.encode "t" = List.replicate 15000 0 from rfl, List.length_replicate])
    (by decide) (by decide) (by decide)
  refine ⟨?_, h.2.2.1⟩
  rw [h.2.1]
  decide

/-- Counterexample to C2 as frozen: a chunk of 8191 tokens is skipped
by the pipeline (upload.py lines 233-235) — no embedding request is
issued for it at all, truncated or otherwise. -/
theorem truncation_claim_false : ¬C2Claim := by
  intro h
  have henc : tooBigTok.encode "a" = List.replicate 8191 0 := rfl
  have hgt : 8190 < (tooBigTok.encode "a").length := by
    rw [henc, List.length_replicate]
    norm_num
  have h2 := h tooBigTok "a" hgt
  have h3 : pipelineChunkAction tooBigTok "a" = ChunkAction.skippedTooLarge := by
    simp only [pipelineChunkAction, henc, List.length_replicate]
    norm_num
  rw [h3] at h2
  exact absurd h2 (by simp)

/-- C2 amended: a chunk whose token count exceeds 8190 is skipped by
the upload loop without an embedding request; every request the
pipeline does issue carries the chunk text unchanged, with at most
8190 tokens; and `get_embedding`'s own pre-check truncates oversized
text (encode, first 8190 tokens, decode) when it is reached directly. -/
theorem oversized_chunk_handling (tok : Tokenizer) (chunk sent : String) :
    (8190 < (tok.encode chunk).length →
      pipelineChunkAction tok chunk = ChunkAction.skippedTooLarge) ∧
    (pipelineChunkAction tok chunk = ChunkAction.requested sent →
      sent = chunk ∧ (tok.encode sent).length ≤ 8190) ∧
    (8190 < (tok.encode chunk).length →
      truncateForEmbedding tok chunk = tok.decode ((tok.encode chunk).take 8190)) := by
  refine ⟨?_, ?_, ?_⟩
  · intro hgt
    have h0 : ¬((tok.encode chunk).length = 0) := by omega
    simp [pipelineChunkAction, h0, hgt]
  · intro hreq
    by_cases h0 : (tok.encode chunk).length = 0
    · simp [pipelineChunkAction, h0] at hreq
    · by_cases hgt : 8190 < (tok.encode chunk).length
      · simp [pipelineChunkAction, h0, hgt] at hreq
      · have htr : truncateForEmbedding tok chunk = chunk := by
          simp [truncateForEmbedding, hgt]
        simp only [pipelineChunkAction, h0, if_false, hgt, htr,
          ChunkAction.requested.injEq] at hreq
        refine ⟨hreq.symm, ?_⟩
        rw [← hreq]
        omega
  · intro hgt
    simp [truncateForEmbedding, hgt]

/-- Witness for the amended C2: an 8191-token chunk is skipped, and a
small chunk is sent unchanged. -/
theorem oversized_chunk_handling_witness :
    pipelineChunkAction tooBigTok "a" = ChunkAction.skippedTooLarge ∧
    ("a" = "a" ∧ (charTok.encode "a").length ≤ 8190) := by
  refine ⟨(oversized_chunk_handling tooBigTok "a" "a").1 ?_,
    (oversized_chunk_handling charTok "a" "a").2.1 ?_⟩
  · rw [show tooBigTok.encode "a" = List.replicate 8191 0 from rfl, List.length_replicate]
    norm_num
  · decide

/-- The loop never calls the endpoint more often than it has attempt
indices. -/
theorem embedLoop_calls_le {V : Type} (oracle : Nat → ApiOutcome V)
    (retry_delay max_retries : Nat) :
    ∀ attempts : List Nat,
      (embedLoop oracle retry_delay max_retries attempts).calls ≤ attempts.length := by
  intro attempts
  induction attempts with
  | nil => simp [embedLoop]
  | cons a rest ih =>
    simp only [embedLoop, List.length_cons]
    cases oracle a with
    | ok v => simp
    | err e =>
      by_cases hr : isRateLimitErr e <;> by_cases ha : a < max_retries - 1
      all_goals simp [hr, ha]
      all_goals omega

/-- C3: `get_embedding` makes at most 3 endpoint calls; a successful
first attempt returns at once; a first error without a rate-limit
signal returns `None` immediately with no retry and no sleep (this
covers both the context-length class and the catch-all); rate-limit
errors back off 5 s after attempt 1 and 10 s after attempt 2 before
retrying, and if the third attempt also fails with a rate-limit error
the result is `None`. -/
theorem get_embedding_retry_policy {V : Type} (oracle : Nat → ApiOutcome V) :
    (get_embedding_run oracle).calls ≤ 3 ∧
    (∀ v, oracle 0 = ApiOutcome.ok v →
      get_embedding_run oracle = ⟨some v, 1, []⟩) ∧
    (∀ e, oracle 0 = ApiOutcome.err e → isRateLimitErr e = false →
      get_embedding_run oracle = ⟨none, 1, []⟩) ∧
    (∀ e v, oracle 0 = ApiOutcome.err e → isRateLimitErr e = true →
      oracle 1 = ApiOutcome.ok v →
      get_embedding_run oracle = ⟨some v, 2, [5]⟩) ∧
    (∀ e₀ e₁ v, oracle 0 = ApiOutcome.err e₀ → isRateLimitErr e₀ = true →
      oracle 1 = ApiOutcome.err e₁ → isRateLimitErr e₁ = true →
      oracle 2 = ApiOutcome.ok v →
      get_embedding_run oracle = ⟨some v, 3, [5, 10]⟩) ∧
    (∀ e₀ e₁ e₂, oracle 0 = ApiOutcome.err e₀ → isRateLimitErr e₀ = true →
      oracle 1 = ApiOutcome.err e₁ → isRateLimitErr e₁ = true →
      oracle 2 = ApiOutcome.err e₂ → isRateLimitErr e₂ = true →
      get_embedding_run oracle = ⟨none, 3, [5, 10]⟩) := by
  have hr : List.range 3 = [0, 1, 2] := rfl
  refine ⟨?_, ?_, ?_, ?_, ?_, ?_⟩
  · have h := embedLoop_calls_le oracle 5 3 (List.range 3)
    simpa [get_embedding_run] using h
  · intro v h0
    simp [get_embedding_run, hr, embedLoop, h0]
  · intro e h0 hrate
    simp [get_embedding_run, hr, embedLoop, h0, hrate]
  · intro e v h0 hrate h1
    simp [get_embedding_run, hr, embedLoop, h0, hrate, h1]
  · intro e₀ e₁ v h0 hr0 h1 hr1 h2
    simp [get_embedding_run, hr, embedLoop, h0, hr0, h1, hr1, h2]
  · intro e₀ e₁ e₂ h0 hr0 h1 hr1 h2 hr2
    simp [get_embedding_run, hr, embedLoop, h0, hr0, h1, hr1, h2, hr2]

/-- Witness for C3: three consecutive rate-limit errors give `None`
after exactly 3 calls with backs-off of 5 s and 10 s. -/
theorem get_embedding_retry_policy_witness :
    get_embedding_run (fun _ => (ApiOutcome.err "Error code: 429" : ApiOutcome Nat)) =
      ⟨none, 3, [5, 10]⟩ := by
  exact (get_embedding_retry_policy
      (fun _ => (ApiOutcome.err "Error code: 429" : ApiOutcome Nat))).2.2.2.2.2
    "Error code: 429" "Error code: 429" "Error code: 429"
    rfl (by decide) rfl (by decide) rfl (by decide)

/-- The loop's counters accumulate exactly the number of files
classified found resp. not found. -/
theorem vdFold_counts (tok : Tokenizer) (md5hex : String → String)
    (fetch : List String → FetchOutcome) :
    ∀ (files : List (String × String)) (a b : Nat),
      List.foldl (vdStep tok md5hex fetch) (a, b) files =
        (a + files.countP
          (fun pf => decide (validate_file tok md5hex fetch pf.1 pf.2 = FileResult.found)),
         b + files.countP
          (fun pf => decide (validate_file tok md5hex fetch pf.1 pf.2 = FileResult.notFound))) := by
  intro files
  induction files with
  | nil => intro a b; simp
  | cons pf rest ih =>
    intro a b
    simp only [List.foldl_cons, List.countP_cons]
    cases hv : validate_file tok md5hex fetch pf.1 pf.2 <;>
      simp only [vdStep, hv] <;> rw [ih] <;>
      refine Prod.ext ?_ ?_ <;> simp [hv] <;> omega

/-- `validate_directory` in closed form. -/
theorem validate_directory_eq_counts (tok : Tokenizer) (md5hex : String → String)
    (fetch : List String → FetchOutcome) (files : List (String × String)) :
    validate_directory tok md5hex fetch files =
      (files.countP
        (fun pf => decide (validate_file tok md5hex fetch pf.1 pf.2 = FileResult.found)),
       files.countP
        (fun pf => decide (validate_file tok md5hex fetch pf.1 pf.2 = FileResult.notFound))) := by
  have h := vdFold_counts tok md5hex fetch files 0 0
  simpa [validate_directory] using h

/-- C9: a validated document (non-blank text) is classified Found
exactly when the fetch over its full set of expected chunk identifiers
returns at least one vector — a single present id suffices — and the
directory counters count exactly the files classified each way. -/
theorem validator_found_classification (tok : Tokenizer) (md5hex : String → String)
    (fetch : List String → FetchOutcome) (files : List (String × String))
    (path text : String) (htext : pyStrip text ≠ "") :
    (validate_file tok md5hex fetch path text = FileResult.found ↔
      ∃ vectors, fetch (expectedIds md5hex (chunk_text_by_tokens tok text 6000 100) path) =
        FetchOutcome.ok vectors ∧ vectors ≠ []) ∧
    validate_directory tok md5hex fetch files =
      (files.countP
        (fun pf => decide (validate_file tok md5hex fetch pf.1 pf.2 = FileResult.found)),
       files.countP
        (fun pf => decide (validate_file tok md5hex fetch pf.1 pf.2 = FileResult.notFound))) := by
  refine ⟨?_, validate_directory_eq_counts tok md5hex fetch files⟩
  simp only [validate_file, htext, if_false]
  cases hf : fetch (expectedIds md5hex (chunk_text_by_tokens tok text 6000 100) path) with
  | ok vectors =>
    by_cases he : vectors.isEmpty
    · have : vectors = [] := List.isEmpty_iff.mp he
      simp [he, this]
    · have hne : vectors ≠ [] := by
        intro hnil
        rw [hnil] at he
        exact he rfl
      simp only [he, if_false]
      constructor
      · intro _
        exact ⟨vectors, rfl, hne⟩
      · intro _
        rfl
  | exn e => simp

/-- Witness for C9: one id present ⇒ Found, and the directory counts
record it. -/
theorem validator_found_classification_witness :
    validate_file charTok wmd5 (fun _ => FetchOutcome.ok ["v1"]) "p.txt" "hi" =
      FileResult.found ∧
    validate_directory charTok wmd5 (fun _ => FetchOutcome.ok ["v1"]) [("p.txt", "hi")] =
      (1, 0) := by
  have h := validator_found_classification charTok wmd5 (fun _ => FetchOutcome.ok ["v1"])
    [("p.txt", "hi")] "p.txt" "hi" (by decide)
  refine ⟨h.1.mpr ⟨["v1"], rfl, by decide⟩, ?_⟩
  rw [h.2]
  decide

/-- C10: when the fetch raises during validation of a (non-blank)
document, that document is classified Not Found, and the directory
loop goes on: in a directory split around that document, the found
counter is the sum of the two sides' found counters and the not-found
counter is the two sides' sum plus one for the failing document — the
exception never escapes the loop (the model renders the caught
exception as the `FetchOutcome.exn` branch; the printed log line has
no observable counterpart here). -/
theorem validator_fetch_error_handling (tok : Tokenizer) (md5hex : String → String)
    (fetch : List String → FetchOutcome) (path text e : String)
    (files₁ files₂ : List (String × String))
    (htext : pyStrip text ≠ "")
    (herr : fetch (expectedIds md5hex (chunk_text_by_tokens tok text 6000 100) path) =
      FetchOutcome.exn e) :
    validate_file tok md5hex fetch path text = FileResult.notFound ∧
    (validate_directory tok md5hex fetch (files₁ ++ (path, text) :: files₂)).1 =
      (validate_directory tok md5hex fetch files₁).1 +
        (validate_directory tok md5hex fetch files₂).1 ∧
    (validate_directory tok md5hex fetch (files₁ ++ (path, text) :: files₂)).2 =
      (validate_directory tok md5hex fetch files₁).2 + 1 +
        (validate_directory tok md5hex fetch files₂).2 := by
  have hnf : validate_file tok md5hex fetch path text = FileResult.notFound := by
    simp [validate_file, htext, herr]
  refine ⟨hnf, ?_, ?_⟩
  all_goals simp [validate_directory_eq_counts, List.countP_cons, hnf]
  all_goals omega

/-- Witness for C10: a directory of three files whose middle fetch
raises. -/
theorem validator_fetch_error_handling_witness :
    validate_file charTok wmd5 (fun _ => FetchOutcome.exn "boom") "p.txt" "hi" =
      FileResult.notFound ∧
    (validate_directory charTok wmd5 (fun _ => FetchOutcome.exn "boom")
        ([("a.txt", "hi")] ++ ("p.txt", "hi") :: [("b.txt", "hi")])).1 =
      (validate_directory charTok wmd5 (fun _ => FetchOutcome.exn "boom") [("a.txt", "hi")]).1 +
        (validate_directory charTok wmd5 (fun _ => FetchOutcome.exn "boom") [("b.txt", "hi")]).1 ∧
    (validate_directory charTok wmd5 (fun _ => FetchOutcome.exn "boom")
        ([("a.txt", "hi")] ++ ("p.txt", "hi") :: [("b.txt", "hi")])).2 =
      (validate_directory charTok wmd5 (fun _ => FetchOutcome.exn "boom") [("a.txt", "hi")]).2 + 1 +
        (validate_directory charTok wmd5 (fun _ => FetchOutcome.exn "boom") [("b.txt", "hi")]).2 :=
  validator_fetch_error_handling charTok wmd5 (fun _ => FetchOutcome.exn "boom")
    "p.txt" "hi" "boom" [("a.txt", "hi")] [("b.txt", "hi")] (by decide) rfl

/-- C1: the identifier-derivation function of the upload path and the
one of the validation path agree on every document path and chunk
index (for the same external hash function). -/
theorem upload_validate_generate_file_id_eq
    (md5hex : String → String) (file_path : String) (chunk_num : Nat) :
    Upload.generate_file_id md5hex file_path chunk_num =
      Validate.generate_file_id md5hex file_path chunk_num := rfl

/-- C7: `generate_file_id` returns `{hash8}_{stem}` for chunk index 0
and `{hash8}_{stem}_chunk_{index:03d}` for a positive index, where
`hash8` is the first 8 characters of the hex digest of the path and
`stem` is the sanitized, 50-character-truncated filename stem. -/
theorem generate_file_id_format
    (md5hex : String → String) (file_path : String) (n : Nat) :
    Upload.generate_file_id md5hex file_path n = specChunkId md5hex file_path n := by
  cases n with
  | zero => rfl
  | succ k =>
    simp [Upload.generate_file_id, specChunkId, sanitizeStem]
